import Mathlib

/-!
Shallow embedding of the Library Inventory Manager
(`library_manager/book.py` and `library_manager/inventory.py`).

Modelling decisions:
* A Python `Book` object is a record of its four string attributes; the
  in-place mutations `issue()` / `return_book()` become functions returning
  the updated record together with the boolean result.
* `LibraryInventory` holds the in-memory list `books` plus the state of the
  catalog file and its sibling backup file (`FS`).  File contents are
  modelled abstractly: absent, a parsed JSON array of book dicts, or
  unparsable bytes (carried as a raw string so that the rename-to-backup is
  observable).
* Disk I/O success is an explicit `ioOk : Bool` parameter threaded into
  every operation that writes or reads the file; `ioOk = false` means the
  underlying open/write raises `IOError`, which `save_catalog` catches,
  leaving the file untouched and returning `False`.  Partial writes are not
  modelled.
* In Python, `book.issue()` mutates the object found by `search_by_isbn`,
  i.e. the first list element whose isbn matches; `updateFirst` mirrors
  that aliasing by rewriting exactly the first matching element.
-/

namespace LibMan

/-- Record `Book` from `book.py`: four string attributes, `status` is
`"available"` or `"issued"`. -/
structure Book where
  title : String
  author : String
  isbn : String
  status : String
deriving DecidableEq, Repr

/-- Constructor `Book.__init__` with the default `status="available"`. -/
def Book.mkDefault (title author isbn : String) : Book :=
  ⟨title, author, isbn, "available"⟩

/-- Method `Book.issue`: if available, flip to issued and report `True`. -/
def Book.issue (b : Book) : Book × Bool :=
  if b.status = "available" then ({ b with status := "issued" }, true)
  else (b, false)

/-- Method `Book.return_book`: if issued, flip to available and report `True`. -/
def Book.return_book (b : Book) : Book × Bool :=
  if b.status = "issued" then ({ b with status := "available" }, true)
  else (b, false)

/-- Predicate `Book.is_available`. -/
def Book.is_available (b : Book) : Bool :=
  b.status == "available"

/-- The flat key-value representation written to the JSON catalog
(`Book.to_dict` produces it, `Book(**d)` consumes it). -/
structure BookDict where
  title : String
  author : String
  isbn : String
  status : String
deriving DecidableEq, Repr

/-- Serializer `Book.to_dict`. -/
def Book.to_dict (b : Book) : BookDict :=
  ⟨b.title, b.author, b.isbn, b.status⟩

/-- Deserializer `Book(**book_dict)` as used in `load_catalog`. -/
def Book.ofDict (d : BookDict) : Book :=
  ⟨d.title, d.author, d.isbn, d.status⟩

/-- Contents of one file path: missing, a valid JSON array of book dicts,
or bytes that fail `json.load` (kept as a raw string). -/
inductive FileContent where
  | absent : FileContent
  | valid : List BookDict → FileContent
  | corrupt : String → FileContent
deriving DecidableEq, Repr

/-- The two disk locations the store touches: the catalog file itself and
its sibling `.json.backup` path. -/
structure FS where
  main : FileContent
  backup : FileContent
deriving DecidableEq, Repr

/-- State of `LibraryInventory`: the in-memory book list and the disk. -/
structure LibraryInventory where
  books : List Book
  fs : FS
deriving DecidableEq, Repr

/-- Function `save_catalog`: serialize `books` and overwrite the catalog file.
On an I/O error (`ioOk = false`) the exception is caught and logged,
the file is left as it was, and `False` is returned. -/
def save_catalog (ioOk : Bool) (books : List Book) (fs : FS) : FS × Bool :=
  if ioOk then ({ fs with main := FileContent.valid (books.map Book.to_dict) }, true)
  else (fs, false)

/-- Function `load_catalog`: read the catalog file.  Absent file: start empty and
create it.  Valid JSON: parse every dict with `Book(**d)`.  Unparsable
content (`json.JSONDecodeError`): rename the file to the `.json.backup`
path (overwriting any previous backup), start empty, rewrite the catalog
path, and return `False`.  A read `IOError`: start empty, touch nothing,
return `False`. -/
def load_catalog (ioOk : Bool) (fs : FS) : List Book × FS × Bool :=
  match fs.main with
  | FileContent.absent =>
      let s := save_catalog ioOk ([] : List Book) fs
      ([], s.1, true)
  | FileContent.valid data =>
      if ioOk then (data.map Book.ofDict, fs, true)
      else ([], fs, false)
  | FileContent.corrupt raw =>
      let fs1 : FS := ⟨FileContent.absent, FileContent.corrupt raw⟩
      let s := save_catalog ioOk ([] : List Book) fs1
      ([], s.1, false)

/-- Constructor `LibraryInventory.__init__`: start with `books = []` and run
`load_catalog` on the given file state. -/
def LibraryInventory.init (ioOk : Bool) (fs : FS) : LibraryInventory × Bool :=
  let r := load_catalog ioOk fs
  (⟨r.1, r.2.1⟩, r.2.2)

/-- Matching of a pattern against the start of a character list (what the
Python `in` operator needs). -/
def listStarts : List Char → List Char → Bool
  | [], _ => true
  | _ :: _, [] => false
  | a :: as, b :: bs => a == b && listStarts as bs

/-- The Python substring test `needle in hay` on character lists. -/
def listSub (needle : List Char) : List Char → Bool
  | [] => listStarts needle []
  | c :: t => listStarts needle (c :: t) || listSub needle t

/-- Python `needle in hay` for strings. -/
def strIn (needle hay : String) : Bool :=
  listSub needle.data hay.data

/-- Python `str.lower()`: lower-case every character (agrees with the
ASCII data this catalog holds). -/
def pyLower (s : String) : String :=
  ⟨s.data.map Char.toLower⟩

/-- Method `search_by_title`: case-insensitive substring match over `title`. -/
def search_by_title (books : List Book) (title : String) : List Book :=
  books.filter (fun book => strIn (pyLower title) (pyLower book.title))

/-- Method `search_by_author`: case-insensitive substring match over `author`. -/
def search_by_author (books : List Book) (author : String) : List Book :=
  books.filter (fun book => strIn (pyLower author) (pyLower book.author))

/-- Method `search_by_isbn`: first book whose isbn equals the query exactly,
`None` otherwise. -/
def search_by_isbn (books : List Book) (isbn : String) : Option Book :=
  books.find? (fun book => book.isbn == isbn)

/-- Method `display_all`: returns the book list itself. -/
def display_all (books : List Book) : List Book :=
  books

/-- Rewrite the first element whose isbn matches; models the in-place
mutation of the object returned by `search_by_isbn`. -/
def updateFirst (isbn : String) (f : Book → Book) : List Book → List Book
  | [] => []
  | b :: rest =>
      if b.isbn == isbn then f b :: rest
      else b :: updateFirst isbn f rest

/-- Method `add_book`: reject a duplicate isbn with `False`; otherwise append,
call `save_catalog` (its result is discarded), and return `True`. -/
def LibraryInventory.add_book (ioOk : Bool) (inv : LibraryInventory)
    (book : Book) : LibraryInventory × Bool :=
  if inv.books.any (fun b => b.isbn == book.isbn) then (inv, false)
  else
    let books := inv.books ++ [book]
    let s := save_catalog ioOk books inv.fs
    (⟨books, s.1⟩, true)

/-- Method `issue_book`: look up by isbn; if found and the `Book.issue`
transition succeeds, persist (result discarded) and return `True`. -/
def LibraryInventory.issue_book (ioOk : Bool) (inv : LibraryInventory)
    (isbn : String) : LibraryInventory × Bool :=
  match search_by_isbn inv.books isbn with
  | none => (inv, false)
  | some book =>
      let r := Book.issue book
      if r.2 then
        let books := updateFirst isbn (fun _ => r.1) inv.books
        let s := save_catalog ioOk books inv.fs
        (⟨books, s.1⟩, true)
      else (inv, false)

/-- Method `return_book`: look up by isbn; if found and the `Book.return_book`
transition succeeds, persist (result discarded) and return `True`. -/
def LibraryInventory.return_book (ioOk : Bool) (inv : LibraryInventory)
    (isbn : String) : LibraryInventory × Bool :=
  match search_by_isbn inv.books isbn with
  | none => (inv, false)
  | some book =>
      let r := Book.return_book book
      if r.2 then
        let books := updateFirst isbn (fun _ => r.1) inv.books
        let s := save_catalog ioOk books inv.fs
        (⟨books, s.1⟩, true)
      else (inv, false)

/-- The dict returned by `get_statistics`. -/
structure Stats where
  total : Nat
  available : Nat
  issued : Nat
deriving DecidableEq, Repr

/-- Method `get_statistics`: totals recomputed from the list on every call. -/
def get_statistics (books : List Book) : Stats :=
  let total := books.length
  let available := books.countP (fun book => book.is_available)
  ⟨total, available, total - available⟩

/-- The query methods seen as state transformers on the full inventory:
each returns its result together with the inventory the method leaves
behind (the method bodies assign neither `self.books` nor the file). -/
def LibraryInventory.search_by_title_m (inv : LibraryInventory)
    (title : String) : List Book × LibraryInventory :=
  (search_by_title inv.books title, inv)

/-- Method `search_by_author` as a state transformer. -/
def LibraryInventory.search_by_author_m (inv : LibraryInventory)
    (author : String) : List Book × LibraryInventory :=
  (search_by_author inv.books author, inv)

/-- Method `search_by_isbn` as a state transformer. -/
def LibraryInventory.search_by_isbn_m (inv : LibraryInventory)
    (isbn : String) : Option Book × LibraryInventory :=
  (search_by_isbn inv.books isbn, inv)

/-- Method `display_all` as a state transformer. -/
def LibraryInventory.display_all_m (inv : LibraryInventory) :
    List Book × LibraryInventory :=
  (display_all inv.books, inv)

/-- Method `get_statistics` as a state transformer. -/
def LibraryInventory.get_statistics_m (inv : LibraryInventory) :
    Stats × LibraryInventory :=
  (get_statistics inv.books, inv)

/-! ### Helper lemmas -/

lemma ofDict_to_dict (b : Book) : Book.ofDict (Book.to_dict b) = b := rfl

lemma map_ofDict_to_dict (books : List Book) :
    (books.map Book.to_dict).map Book.ofDict = books := by
  induction books with
  | nil => rfl
  | cons b t ih => simp only [List.map_cons, ih, ofDict_to_dict]

lemma map_ofDict_comp (books : List Book) :
    List.map (Book.ofDict ∘ Book.to_dict) books = books := by
  induction books with
  | nil => rfl
  | cons b t ih =>
      simp only [List.map_cons, ih, Function.comp_apply, ofDict_to_dict]

lemma issue_snd (b : Book) : (Book.issue b).2 = b.is_available := by
  by_cases h : b.status = "available" <;>
    simp [Book.issue, Book.is_available, h]

lemma issue_fst_isbn (b : Book) : (Book.issue b).1.isbn = b.isbn := by
  by_cases h : b.status = "available" <;> simp [Book.issue, h]

lemma return_fst_isbn (b : Book) : (Book.return_book b).1.isbn = b.isbn := by
  by_cases h : b.status = "issued" <;> simp [Book.return_book, h]

lemma is_available_iff (b : Book) :
    b.is_available = true ↔ b.status = "available" := by
  simp [Book.is_available]

lemma search_some_mem {books : List Book} {isbn : String} {b : Book}
    (h : search_by_isbn books isbn = some b) : b ∈ books ∧ b.isbn = isbn := by
  refine ⟨List.mem_of_find?_eq_some h, ?_⟩
  have hp := List.find?_some h
  simpa using hp

lemma search_none_iff (books : List Book) (isbn : String) :
    search_by_isbn books isbn = none ↔ ∀ b ∈ books, b.isbn ≠ isbn := by
  simp [search_by_isbn]

lemma search_of_mem {isbn : String} :
    ∀ {books : List Book}, books.Pairwise (fun a b => a.isbn ≠ b.isbn) →
      ∀ {b : Book}, b ∈ books → b.isbn = isbn →
        search_by_isbn books isbn = some b := by
  intro books
  induction books with
  | nil => intro _ b h; cases h
  | cons hd tl ih =>
      intro huniq b hmem hisbn
      have hpc := List.pairwise_cons.mp huniq
      rcases List.mem_cons.mp hmem with h | h
      · subst h
        exact List.find?_cons_of_pos _ (by simpa using hisbn)
      · have hne : ¬ ((fun bo => bo.isbn == isbn) hd = true) := by
          have hx := hpc.1 b h
          rw [hisbn] at hx
          simpa using hx
        have htl := ih hpc.2 h hisbn
        calc search_by_isbn (hd :: tl) isbn
            = search_by_isbn tl isbn := List.find?_cons_of_neg _ hne
          _ = some b := htl

lemma search_updateFirst {isbn : String} {c : Book}
    (hc : (c.isbn == isbn) = true) :
    ∀ {books : List Book} {b : Book}, search_by_isbn books isbn = some b →
      search_by_isbn (updateFirst isbn (fun _ => c) books) isbn = some c := by
  intro books
  induction books with
  | nil => intro b h; simp [search_by_isbn] at h
  | cons hd tl ih =>
      intro b h
      by_cases hhd : (hd.isbn == isbn) = true
      · simp only [updateFirst, hhd, if_true]
        exact List.find?_cons_of_pos _ hc
      · simp only [updateFirst, hhd, if_false]
        have h' : search_by_isbn tl isbn = some b := by
          unfold search_by_isbn at h ⊢
          rwa [List.find?_cons_of_neg _ (by simpa using hhd)] at h
        calc search_by_isbn (hd :: updateFirst isbn (fun _ => c) tl) isbn
            = search_by_isbn (updateFirst isbn (fun _ => c) tl) isbn :=
              List.find?_cons_of_neg _ (by simpa using hhd)
          _ = some c := ih h'

lemma updateFirst_updateFirst {isbn : String} {c1 c2 : Book}
    (h : (c1.isbn == isbn) = true) :
    ∀ books : List Book,
      updateFirst isbn (fun _ => c2) (updateFirst isbn (fun _ => c1) books) =
        updateFirst isbn (fun _ => c2) books := by
  intro books
  induction books with
  | nil => rfl
  | cons hd tl ih =>
      by_cases hhd : (hd.isbn == isbn) = true
      · simp [updateFirst, hhd, h]
      · simp [updateFirst, hhd, ih]

lemma updateFirst_found :
    ∀ {books : List Book} {isbn : String} {b : Book},
      search_by_isbn books isbn = some b →
      updateFirst isbn (fun _ => b) books = books := by
  intro books
  induction books with
  | nil => intro _ _ h; simp [search_by_isbn] at h
  | cons hd tl ih =>
      intro isbn b h
      by_cases hhd : (hd.isbn == isbn) = true
      · unfold search_by_isbn at h
        rw [List.find?_cons_of_pos _ (by simpa using hhd)] at h
        cases h
        simp [updateFirst, hhd]
      · unfold search_by_isbn at h
        rw [List.find?_cons_of_neg _ (by simpa using hhd)] at h
        simp [updateFirst, hhd, ih h]

lemma issue_book_none {inv : LibraryInventory} {isbn : String}
    (h : search_by_isbn inv.books isbn = none) :
    LibraryInventory.issue_book true inv isbn = (inv, false) := by
  simp [LibraryInventory.issue_book, h]

lemma issue_book_unavailable {inv : LibraryInventory} {isbn : String} {b : Book}
    (hf : search_by_isbn inv.books isbn = some b)
    (hav : b.is_available = false) :
    LibraryInventory.issue_book true inv isbn = (inv, false) := by
  have hst : ¬ b.status = "available" := by
    intro hcon
    rw [(is_available_iff b).mpr hcon] at hav
    cases hav
  simp [LibraryInventory.issue_book, hf, Book.issue, hst]

lemma issue_book_available {inv : LibraryInventory} {isbn : String} {b : Book}
    (hf : search_by_isbn inv.books isbn = some b)
    (hav : b.is_available = true) :
    LibraryInventory.issue_book true inv isbn =
      (⟨updateFirst isbn (fun _ => ⟨b.title, b.author, b.isbn, "issued"⟩)
          inv.books,
        ⟨FileContent.valid
            ((updateFirst isbn (fun _ => ⟨b.title, b.author, b.isbn, "issued"⟩)
                inv.books).map Book.to_dict),
          inv.fs.backup⟩⟩, true) := by
  have hst : b.status = "available" := (is_available_iff b).mp hav
  simp [LibraryInventory.issue_book, hf, Book.issue, hst, save_catalog]

lemma return_book_none {inv : LibraryInventory} {isbn : String}
    (h : search_by_isbn inv.books isbn = none) :
    LibraryInventory.return_book true inv isbn = (inv, false) := by
  simp [LibraryInventory.return_book, h]

lemma return_book_not_issued {inv : LibraryInventory} {isbn : String} {b : Book}
    (hf : search_by_isbn inv.books isbn = some b)
    (hst : ¬ b.status = "issued") :
    LibraryInventory.return_book true inv isbn = (inv, false) := by
  simp [LibraryInventory.return_book, hf, Book.return_book, hst]

lemma return_book_issued {inv : LibraryInventory} {isbn : String} {b : Book}
    (hf : search_by_isbn inv.books isbn = some b)
    (hst : b.status = "issued") :
    LibraryInventory.return_book true inv isbn =
      (⟨updateFirst isbn (fun _ => ⟨b.title, b.author, b.isbn, "available"⟩)
          inv.books,
        ⟨FileContent.valid
            ((updateFirst isbn
                (fun _ => ⟨b.title, b.author, b.isbn, "available"⟩)
                inv.books).map Book.to_dict),
          inv.fs.backup⟩⟩, true) := by
  simp [LibraryInventory.return_book, hf, Book.return_book, hst, save_catalog]

/-! ### C5 — persist / load round trip -/

/-- C5: `save_catalog` followed by constructing a fresh store on the
resulting file state reproduces the same book list, and deserializing a
serialized record reproduces the record. -/
theorem c5_persist_load_roundtrip (books : List Book) (fs : FS) (b : Book) :
    (LibraryInventory.init true (save_catalog true books fs).1).1.books = books ∧
    Book.ofDict (Book.to_dict b) = b := by
  refine ⟨?_, rfl⟩
  simp [LibraryInventory.init, load_catalog, save_catalog, map_ofDict_to_dict,
    map_ofDict_comp]

/-! ### C6 — corrupt catalog recovery at load -/

/-- C6: constructing a store on an unparsable catalog file renames the
corrupt content to the backup path, rewrites the catalog path as a fresh
empty valid catalog, starts with zero records, and returns a boolean
rather than raising. -/
theorem c6_corrupt_load_recovery (raw : String) (backup : FileContent) :
    LibraryInventory.init true ⟨FileContent.corrupt raw, backup⟩ =
      (⟨[], ⟨FileContent.valid [], FileContent.corrupt raw⟩⟩, false) := rfl

/-! ### C9 — statistics -/

/-- C9: `get_statistics` reports the total record count, the count of
available records, and issued = total − available, recomputed from the
collection; concretely, adding two records and issuing one yields
total 2, available 1, issued 1. -/
theorem c9_statistics :
    (∀ books : List Book,
        (get_statistics books).total = books.length ∧
        (get_statistics books).available =
          (books.filter (fun b => b.is_available)).length ∧
        (get_statistics books).issued =
          (get_statistics books).total - (get_statistics books).available ∧
        (get_statistics books).available + (get_statistics books).issued =
          (get_statistics books).total) ∧
    get_statistics
      ((((LibraryInventory.init true ⟨FileContent.absent, FileContent.absent⟩).1.add_book
            true ⟨"Python Programming", "A", "111", "available"⟩).1.add_book
            true ⟨"Data Science", "B", "222", "available"⟩).1.issue_book
            true "111").1.books = ⟨2, 1, 1⟩ := by
  constructor
  · intro books
    refine ⟨rfl, ?_, rfl, ?_⟩
    · simp [get_statistics, List.countP_eq_length_filter]
    · simp only [get_statistics]
      exact Nat.add_sub_cancel' (List.countP_le_length _)
  · decide

/-! ### C1 — duplicate isbn is rejected without mutation -/

/-- C1: once `add_book r1` has succeeded, adding any `r2` with the same
isbn returns `false` and leaves the inventory untouched; the collection
still holds exactly `r1` for that isbn, and grew by exactly one record
during the first add. -/
theorem c1_duplicate_add_rejected (ioOk1 ioOk2 : Bool)
    (inv inv1 : LibraryInventory) (r1 r2 : Book) (hisbn : r2.isbn = r1.isbn)
    (h1 : LibraryInventory.add_book ioOk1 inv r1 = (inv1, true)) :
    LibraryInventory.add_book ioOk2 inv1 r2 = (inv1, false) ∧
    inv1.books.filter (fun b => b.isbn == r1.isbn) = [r1] ∧
    inv1.books.length = inv.books.length + 1 := by
  cases hany : inv.books.any (fun b => b.isbn == r1.isbn) with
  | true => simp [LibraryInventory.add_book, hany] at h1
  | false =>
      simp only [LibraryInventory.add_book, hany, Bool.false_eq_true,
        if_false, Prod.mk.injEq, and_true] at h1
      have hnone : ∀ b ∈ inv.books, (b.isbn == r1.isbn) = false := by
        intro b hb
        have h := List.any_eq_false.mp hany b hb
        simpa using h
      refine ⟨?_, ?_, ?_⟩
      · have hany2 : inv1.books.any (fun b => b.isbn == r2.isbn) = true := by
          rw [← h1]
          simp [List.any_append, hisbn]
        simp [LibraryInventory.add_book, hany2]
      · rw [← h1]
        simp only [List.filter_append]
        rw [List.filter_eq_nil_iff.mpr (by intro b hb; simp [hnone b hb])]
        simp
      · rw [← h1]; simp


/-- Witness for C1 at a concrete store: a second add with the same isbn
is rejected and changes nothing. -/
theorem c1_duplicate_add_rejected_witness :
    LibraryInventory.add_book true
        ⟨[⟨"T", "A", "1", "available"⟩],
          ⟨FileContent.valid [⟨"T", "A", "1", "available"⟩], FileContent.absent⟩⟩
        ⟨"U", "B", "1", "available"⟩ =
      (⟨[⟨"T", "A", "1", "available"⟩],
          ⟨FileContent.valid [⟨"T", "A", "1", "available"⟩], FileContent.absent⟩⟩,
        false) :=
  (c1_duplicate_add_rejected true true ⟨[], ⟨FileContent.absent, FileContent.absent⟩⟩
      ⟨[⟨"T", "A", "1", "available"⟩],
        ⟨FileContent.valid [⟨"T", "A", "1", "available"⟩], FileContent.absent⟩⟩
      ⟨"T", "A", "1", "available"⟩ ⟨"U", "B", "1", "available"⟩ rfl rfl).1

/-! ### C2 — behaviour when persistence fails -/

/-- C2 counterexample: with the disk failing, `add_book` on an empty
store appends in memory and still returns `true`, not the `false` the
claim asserts ("the operation returns a boolean failure (false) to the
caller"). -/
theorem c2_counterexample :
    LibraryInventory.add_book false ⟨[], ⟨FileContent.absent, FileContent.absent⟩⟩
        ⟨"T", "A", "1", "available"⟩ =
      (⟨[⟨"T", "A", "1", "available"⟩], ⟨FileContent.absent, FileContent.absent⟩⟩,
        true) ∧
    ¬ (LibraryInventory.add_book false ⟨[], ⟨FileContent.absent, FileContent.absent⟩⟩
        ⟨"T", "A", "1", "available"⟩).2 = false :=
  ⟨rfl, by decide⟩

/-- C2 amended: on a persistence I/O failure nothing is raised and the
in-memory mutation is kept, and `save_catalog` itself returns `false`
leaving the file untouched; but `add_book` / `issue_book` /
`return_book` discard that result and return `true` (the failure is not
surfaced through them). -/
theorem c2_amended_persist_failure (inv : LibraryInventory) (book : Book)
    (hnew : inv.books.any (fun b => b.isbn == book.isbn) = false) :
    save_catalog false inv.books inv.fs = (inv.fs, false) ∧
    LibraryInventory.add_book false inv book =
      (⟨inv.books ++ [book], inv.fs⟩, true) ∧
    (∀ isbn b, search_by_isbn inv.books isbn = some b →
        (Book.issue b).2 = true →
        LibraryInventory.issue_book false inv isbn =
          (⟨updateFirst isbn (fun _ => (Book.issue b).1) inv.books, inv.fs⟩,
            true)) ∧
    (∀ isbn b, search_by_isbn inv.books isbn = some b →
        (Book.return_book b).2 = true →
        LibraryInventory.return_book false inv isbn =
          (⟨updateFirst isbn (fun _ => (Book.return_book b).1) inv.books,
              inv.fs⟩, true)) := by
  refine ⟨rfl, ?_, ?_, ?_⟩
  · simp [LibraryInventory.add_book, hnew, save_catalog]
  · intro isbn b hf hi
    simp [LibraryInventory.issue_book, hf, hi, save_catalog]
  · intro isbn b hf hr
    simp [LibraryInventory.return_book, hf, hr, save_catalog]

/-- Witness for the amended C2 theorem: concrete add with failing disk
keeps the appended record, returns `true`, file untouched. -/
theorem c2_amended_persist_failure_witness :
    LibraryInventory.add_book false
        ⟨[⟨"T", "A", "1", "available"⟩],
          ⟨FileContent.valid [⟨"T", "A", "1", "available"⟩], FileContent.absent⟩⟩
        ⟨"U", "B", "2", "available"⟩ =
      (⟨[⟨"T", "A", "1", "available"⟩, ⟨"U", "B", "2", "available"⟩],
          ⟨FileContent.valid [⟨"T", "A", "1", "available"⟩], FileContent.absent⟩⟩,
        true) :=
  (c2_amended_persist_failure
      ⟨[⟨"T", "A", "1", "available"⟩],
        ⟨FileContent.valid [⟨"T", "A", "1", "available"⟩], FileContent.absent⟩⟩
      ⟨"U", "B", "2", "available"⟩ (by decide)).2.1

/-! ### C3 — issue semantics -/

/-- C3: on a store with unique isbns, `issue_book` succeeds exactly when
a record with that exact isbn exists and is available; not-found and
already-issued lookups return `false` and change nothing; on success the
record flips to issued and the catalog file is rewritten from the new
collection; a second consecutive issue of the same isbn returns
`false`. -/
theorem c3_issue_spec (inv : LibraryInventory) (isbn : String)
    (huniq : inv.books.Pairwise (fun a b => a.isbn ≠ b.isbn)) :
    ((LibraryInventory.issue_book true inv isbn).2 = true ↔
      ∃ b ∈ inv.books, b.isbn = isbn ∧ b.is_available = true) ∧
    (search_by_isbn inv.books isbn = none →
      LibraryInventory.issue_book true inv isbn = (inv, false)) ∧
    (∀ b, search_by_isbn inv.books isbn = some b → b.is_available = false →
      LibraryInventory.issue_book true inv isbn = (inv, false)) ∧
    (∀ b, search_by_isbn inv.books isbn = some b → b.is_available = true →
      search_by_isbn (LibraryInventory.issue_book true inv isbn).1.books isbn =
        some ⟨b.title, b.author, b.isbn, "issued"⟩ ∧
      (LibraryInventory.issue_book true inv isbn).1.fs.main =
        FileContent.valid
          ((LibraryInventory.issue_book true inv isbn).1.books.map
            Book.to_dict) ∧
      (LibraryInventory.issue_book true
          (LibraryInventory.issue_book true inv isbn).1 isbn).2 = false) := by
  have hgood : ∀ b, search_by_isbn inv.books isbn = some b →
      b.is_available = true →
      search_by_isbn (LibraryInventory.issue_book true inv isbn).1.books isbn =
        some ⟨b.title, b.author, b.isbn, "issued"⟩ := by
    intro b hf hav
    rw [issue_book_available hf hav]
    exact search_updateFirst (by simpa using (search_some_mem hf).2) hf
  refine ⟨?_, fun h => issue_book_none h, fun b hf hav =>
    issue_book_unavailable hf hav, fun b hf hav => ⟨hgood b hf hav, ?_, ?_⟩⟩
  · constructor
    · intro h2
      cases hf : search_by_isbn inv.books isbn with
      | none => rw [issue_book_none hf] at h2; cases h2
      | some b =>
          cases hav : b.is_available with
          | false => rw [issue_book_unavailable hf hav] at h2; cases h2
          | true =>
              exact ⟨b, (search_some_mem hf).1, (search_some_mem hf).2, hav⟩
    · rintro ⟨b, hmem, hisbn, hav⟩
      rw [issue_book_available (search_of_mem huniq hmem hisbn) hav]
  · rw [issue_book_available hf hav]
  · have h2 := issue_book_unavailable (hgood b hf hav) rfl
    rw [h2]


/-- Witness for C3: issuing the one available record of a concrete store
returns `true`. -/
theorem c3_issue_spec_witness :
    (LibraryInventory.issue_book true
        ⟨[⟨"T", "A", "1", "available"⟩],
          ⟨FileContent.valid [⟨"T", "A", "1", "available"⟩],
            FileContent.absent⟩⟩ "1").2 = true :=
  (c3_issue_spec
      ⟨[⟨"T", "A", "1", "available"⟩],
        ⟨FileContent.valid [⟨"T", "A", "1", "available"⟩],
          FileContent.absent⟩⟩ "1" (by simp)).1.mpr
    ⟨⟨"T", "A", "1", "available"⟩, by simp, rfl, rfl⟩

/-! ### C4 — return is the inverse of issue -/

/-- C4: for a record present and available, issuing then returning it
restores the collection exactly (so `is_available` is `true` again), the
return succeeds; and a return on a record that is currently available
fails with `false` and no change. -/
theorem c4_return_inverse (inv : LibraryInventory) (isbn : String) (b : Book)
    (hf : search_by_isbn inv.books isbn = some b)
    (hav : b.is_available = true) :
    (LibraryInventory.issue_book true inv isbn).2 = true ∧
    (LibraryInventory.return_book true
        (LibraryInventory.issue_book true inv isbn).1 isbn).2 = true ∧
    (LibraryInventory.return_book true
        (LibraryInventory.issue_book true inv isbn).1 isbn).1.books =
      inv.books ∧
    (∃ b2, search_by_isbn
        (LibraryInventory.return_book true
          (LibraryInventory.issue_book true inv isbn).1 isbn).1.books isbn =
        some b2 ∧ b2.is_available = true) ∧
    LibraryInventory.return_book true inv isbn = (inv, false) := by
  have hbisbn : (b.isbn == isbn) = true := by
    simpa using (search_some_mem hf).2
  have hstatus : b.status = "available" := (is_available_iff b).mp hav
  have h1 := issue_book_available hf hav
  have hs1 : search_by_isbn
      (LibraryInventory.issue_book true inv isbn).1.books isbn =
      some ⟨b.title, b.author, b.isbn, "issued"⟩ := by
    rw [h1]
    exact search_updateFirst (by simpa using hbisbn) hf
  have h2 := return_book_issued hs1 rfl
  have hrestore : (LibraryInventory.return_book true
      (LibraryInventory.issue_book true inv isbn).1 isbn).1.books =
      inv.books := by
    rw [h2, h1]
    have hb2 : (⟨b.title, b.author, b.isbn, "available"⟩ : Book) = b := by
      cases b
      simp_all
    calc updateFirst isbn (fun _ => ⟨b.title, b.author, b.isbn, "available"⟩)
          (updateFirst isbn (fun _ => ⟨b.title, b.author, b.isbn, "issued"⟩)
            inv.books)
        = updateFirst isbn (fun _ => ⟨b.title, b.author, b.isbn, "available"⟩)
            inv.books := updateFirst_updateFirst (by simpa using hbisbn) _
      _ = updateFirst isbn (fun _ => b) inv.books := by rw [hb2]
      _ = inv.books := updateFirst_found hf
  refine ⟨by rw [h1], by rw [h2], hrestore, ?_, ?_⟩
  · exact ⟨b, by rw [hrestore]; exact hf, hav⟩
  · exact return_book_not_issued hf (by rw [hstatus]; decide)

/-- Witness for C4: issue then return on a concrete one-record store
brings the collection back to its original value. -/
theorem c4_return_inverse_witness :
    (LibraryInventory.return_book true
        (LibraryInventory.issue_book true
          ⟨[⟨"T", "A", "1", "available"⟩],
            ⟨FileContent.valid [⟨"T", "A", "1", "available"⟩],
              FileContent.absent⟩⟩ "1").1 "1").1.books =
      [⟨"T", "A", "1", "available"⟩] :=
  (c4_return_inverse
      ⟨[⟨"T", "A", "1", "available"⟩],
        ⟨FileContent.valid [⟨"T", "A", "1", "available"⟩],
          FileContent.absent⟩⟩ "1" ⟨"T", "A", "1", "available"⟩
      rfl rfl).2.2.1

/-! ### C7 — isbn uniqueness -/

lemma pairwise_isbn_iff (books : List Book) :
    books.Pairwise (fun a b => a.isbn ≠ b.isbn) ↔
      (books.map Book.isbn).Pairwise (fun a b => a ≠ b) :=
  (List.pairwise_map).symm

lemma updateFirst_map_isbn {isbn : String} {c : Book}
    (hc : (c.isbn == isbn) = true) :
    ∀ books : List Book,
      (updateFirst isbn (fun _ => c) books).map Book.isbn =
        books.map Book.isbn := by
  intro books
  induction books with
  | nil => rfl
  | cons hd tl ih =>
      by_cases hhd : (hd.isbn == isbn) = true
      · have h1 : c.isbn = isbn := by simpa using hc
        have h2 : hd.isbn = isbn := by simpa using hhd
        simp [updateFirst, hhd, h1, h2]
      · simp [updateFirst, hhd, ih]

lemma pairwise_updateFirst {isbn : String} {c : Book}
    (hc : (c.isbn == isbn) = true) {books : List Book}
    (h : books.Pairwise (fun a b => a.isbn ≠ b.isbn)) :
    (updateFirst isbn (fun _ => c) books).Pairwise
      (fun a b => a.isbn ≠ b.isbn) := by
  rw [pairwise_isbn_iff] at h ⊢
  rwa [updateFirst_map_isbn hc]

/-- C7 counterexample: constructing a store on a backing file that holds
two records with the same isbn yields a collection in which isbn is not
unique — `load_catalog` performs no duplicate filtering. -/
theorem c7_counterexample :
    ¬ ((LibraryInventory.init true
        ⟨FileContent.valid
            [⟨"T", "A", "1", "available"⟩, ⟨"U", "B", "1", "available"⟩],
          FileContent.absent⟩).1.books.Pairwise
        (fun a b => a.isbn ≠ b.isbn)) := by
  intro h
  have hbooks : (LibraryInventory.init true
      ⟨FileContent.valid
          [⟨"T", "A", "1", "available"⟩, ⟨"U", "B", "1", "available"⟩],
        FileContent.absent⟩).1.books =
      [⟨"T", "A", "1", "available"⟩, ⟨"U", "B", "1", "available"⟩] := rfl
  rw [hbooks] at h
  exact (List.pairwise_cons.mp h).1 ⟨"U", "B", "1", "available"⟩ (by simp) rfl

/-- C7 amended: isbn uniqueness is preserved by every mutating operation
(`add_book`, `issue_book`, `return_book`) and holds after construction
whenever the records held in the backing file have pairwise-distinct
isbns; `load_catalog` performs no deduplication, so a file with repeated
isbns is loaded as-is. -/
theorem c7_amended_isbn_uniqueness (inv : LibraryInventory) (ioOk : Bool)
    (huniq : inv.books.Pairwise (fun a b => a.isbn ≠ b.isbn)) :
    (∀ book, ((LibraryInventory.add_book ioOk inv book).1).books.Pairwise
      (fun a b => a.isbn ≠ b.isbn)) ∧
    (∀ isbn, ((LibraryInventory.issue_book ioOk inv isbn).1).books.Pairwise
      (fun a b => a.isbn ≠ b.isbn)) ∧
    (∀ isbn, ((LibraryInventory.return_book ioOk inv isbn).1).books.Pairwise
      (fun a b => a.isbn ≠ b.isbn)) ∧
    (∀ data : List BookDict, data.Pairwise (fun a b => a.isbn ≠ b.isbn) →
      ((LibraryInventory.init true
          ⟨FileContent.valid data, FileContent.absent⟩).1).books.Pairwise
        (fun a b => a.isbn ≠ b.isbn)) := by
  refine ⟨?_, ?_, ?_, ?_⟩
  · intro book
    cases hany : inv.books.any (fun b => b.isbn == book.isbn) with
    | true => simpa [LibraryInventory.add_book, hany] using huniq
    | false =>
        have hnone : ∀ b ∈ inv.books, b.isbn ≠ book.isbn := by
          intro b hb
          have h := List.any_eq_false.mp hany b hb
          simpa using h
        have hbooks : ((LibraryInventory.add_book ioOk inv book).1).books =
            inv.books ++ [book] := by
          simp [LibraryInventory.add_book, hany]
        rw [hbooks, List.pairwise_append]
        refine ⟨huniq, List.pairwise_singleton _ _, ?_⟩
        intro a ha b hb
        rw [List.mem_singleton] at hb
        subst hb
        exact hnone a ha
  · intro isbn
    cases hf : search_by_isbn inv.books isbn with
    | none => simpa [LibraryInventory.issue_book, hf] using huniq
    | some b =>
        by_cases hb : b.status = "available"
        · have hc : ((⟨b.title, b.author, b.isbn, "issued"⟩ : Book).isbn ==
              isbn) = true := by
            simpa using (search_some_mem hf).2
          have hbooks : ((LibraryInventory.issue_book ioOk inv isbn).1).books =
              updateFirst isbn (fun _ => ⟨b.title, b.author, b.isbn, "issued"⟩)
                inv.books := by
            simp [LibraryInventory.issue_book, hf, Book.issue, hb]
          rw [hbooks]
          exact pairwise_updateFirst hc huniq
        · simpa [LibraryInventory.issue_book, hf, Book.issue, hb] using huniq
  · intro isbn
    cases hf : search_by_isbn inv.books isbn with
    | none => simpa [LibraryInventory.return_book, hf] using huniq
    | some b =>
        by_cases hb : b.status = "issued"
        · have hc : ((⟨b.title, b.author, b.isbn, "available"⟩ : Book).isbn ==
              isbn) = true := by
            simpa using (search_some_mem hf).2
          have hbooks : ((LibraryInventory.return_book ioOk inv isbn).1).books =
              updateFirst isbn
                (fun _ => ⟨b.title, b.author, b.isbn, "available"⟩)
                inv.books := by
            simp [LibraryInventory.return_book, hf, Book.return_book, hb]
          rw [hbooks]
          exact pairwise_updateFirst hc huniq
        · simpa [LibraryInventory.return_book, hf, Book.return_book, hb]
            using huniq
  · intro data hdata
    have hbooks : (LibraryInventory.init true
        ⟨FileContent.valid data, FileContent.absent⟩).1.books =
        data.map Book.ofDict := rfl
    rw [hbooks, List.pairwise_map]
    simpa [Book.ofDict] using hdata

/-- Witness for the amended C7 theorem: adding a fresh isbn to a concrete
one-record store keeps isbns pairwise distinct. -/
theorem c7_amended_isbn_uniqueness_witness :
    ((LibraryInventory.add_book true
        ⟨[⟨"T", "A", "1", "available"⟩],
          ⟨FileContent.valid [⟨"T", "A", "1", "available"⟩],
            FileContent.absent⟩⟩
        ⟨"U", "B", "2", "available"⟩).1).books.Pairwise
      (fun a b => a.isbn ≠ b.isbn) :=
  (c7_amended_isbn_uniqueness
      ⟨[⟨"T", "A", "1", "available"⟩],
        ⟨FileContent.valid [⟨"T", "A", "1", "available"⟩],
          FileContent.absent⟩⟩ true (by simp)).1
    ⟨"U", "B", "2", "available"⟩

/-! ### C8 — search semantics -/

lemma listStarts_iff : ∀ n h : List Char,
    listStarts n h = true ↔ ∃ t, h = n ++ t := by
  intro n
  induction n with
  | nil =>
      intro h
      simp [listStarts]
  | cons a as ih =>
      intro h
      cases h with
      | nil => simp [listStarts]
      | cons b bs =>
          simp only [listStarts, Bool.and_eq_true, beq_iff_eq]
          constructor
          · rintro ⟨rfl, hs⟩
            obtain ⟨t, rfl⟩ := (ih bs).mp hs
            exact ⟨t, rfl⟩
          · rintro ⟨t, ht⟩
            injection ht with h1 h2
            exact ⟨h1.symm, (ih bs).mpr ⟨t, h2⟩⟩

lemma listSub_iff (n : List Char) :
    ∀ h : List Char, listSub n h = true ↔ ∃ s t, h = s ++ n ++ t := by
  intro h
  induction h with
  | nil =>
      rw [show listSub n [] = listStarts n [] from rfl, listStarts_iff]
      constructor
      · rintro ⟨t, ht⟩
        exact ⟨[], t, by simpa using ht⟩
      · rintro ⟨s, t, ht⟩
        rcases List.append_eq_nil.mp ht.symm with ⟨hsn, hnt⟩
        rcases List.append_eq_nil.mp hsn with ⟨hs, hn⟩
        exact ⟨t, by simp [hn, hnt]⟩
  | cons c cs ih =>
      rw [show listSub n (c :: cs) = (listStarts n (c :: cs) || listSub n cs)
          from rfl,
        Bool.or_eq_true, listStarts_iff, ih]
      constructor
      · rintro (⟨u, hu⟩ | ⟨s, u, hu⟩)
        · exact ⟨[], u, by simpa using hu⟩
        · refine ⟨c :: s, u, ?_⟩
          rw [hu]
          rfl
      · rintro ⟨s, u, hu⟩
        cases s with
        | nil => exact Or.inl ⟨u, by simpa using hu⟩
        | cons x xs =>
            injection hu with h1 h2
            subst h1
            exact Or.inr ⟨xs, u, h2⟩

lemma strIn_iff (needle hay : String) :
    strIn needle hay = true ↔ ∃ s t, hay.data = s ++ needle.data ++ t :=
  listSub_iff _ _

/-- C8: title / author search return exactly the records whose
lower-cased field contains the lower-cased query as a contiguous
substring, as a sublist of the collection (so in insertion order); isbn
search is an exact match returning the record (a member with that exact
isbn) or `none` precisely when no record carries the isbn; all searches
on an empty store return an empty result. -/
theorem c8_search_spec (books : List Book) (q isbn : String) :
    (∀ b, b ∈ search_by_title books q ↔
        b ∈ books ∧ ∃ s t, (pyLower b.title).data =
          s ++ (pyLower q).data ++ t) ∧
    (∀ b, b ∈ search_by_author books q ↔
        b ∈ books ∧ ∃ s t, (pyLower b.author).data =
          s ++ (pyLower q).data ++ t) ∧
    List.Sublist (search_by_title books q) books ∧
    List.Sublist (search_by_author books q) books ∧
    (∀ b, search_by_isbn books isbn = some b → b ∈ books ∧ b.isbn = isbn) ∧
    (search_by_isbn books isbn = none ↔ ∀ b ∈ books, b.isbn ≠ isbn) ∧
    search_by_title ([] : List Book) q = [] ∧
    search_by_author ([] : List Book) q = [] ∧
    search_by_isbn ([] : List Book) isbn = none := by
  refine ⟨?_, ?_, List.filter_sublist _, List.filter_sublist _,
    fun b h => search_some_mem h, search_none_iff books isbn, rfl, rfl, rfl⟩
  · intro b
    simp only [search_by_title, List.mem_filter, strIn_iff]
  · intro b
    simp only [search_by_author, List.mem_filter, strIn_iff]

/-- Witness for C8: the query `"prog"` matches the record titled
`"Python Programming"` (case-insensitive substring). -/
theorem c8_search_spec_witness :
    (⟨"Python Programming", "A", "1", "available"⟩ : Book) ∈
      search_by_title [⟨"Python Programming", "A", "1", "available"⟩]
        "prog" :=
  ((c8_search_spec [⟨"Python Programming", "A", "1", "available"⟩] "prog"
      "1").1 ⟨"Python Programming", "A", "1", "available"⟩).mpr
    ⟨by simp, "python ".data, "ramming".data, by decide⟩

/-! ### C10 — queries have no side effect on the store -/

/-- C10: the read-only operations (title / author / isbn search, list
all, statistics) leave the whole inventory state — every record and the
backing file — unchanged. -/
theorem c10_queries_frame (inv : LibraryInventory) (q i : String) :
    (inv.search_by_title_m q).2 = inv ∧
    (inv.search_by_author_m q).2 = inv ∧
    (inv.search_by_isbn_m i).2 = inv ∧
    inv.display_all_m.2 = inv ∧
    inv.get_statistics_m.2 = inv :=
  ⟨rfl, rfl, rfl, rfl, rfl⟩

end LibMan
